import Mathlib

/-!
Verification of the `rosa list instance-types` command
(`cmd/list/instancetypes/cmd.go`).

The development shallowly embeds the two pieces of logic of that file:

* the byte-count formatter `ByteCountIEC` (lines 248-263), and
* the control flow of the `run` function (lines 102-246), with every
  external collaborator (OCM client, AWS client, interactive prompts,
  output serializer) modelled as an environment of pre-determined
  results.

Machine integers are modelled as `Int`/`Nat`; a Go runtime panic
(integer division by zero, index out of range) is modelled as `none`.
-/

set_option autoImplicit false

/-- Rounding of the fraction `num / den` to the nearest integer with
ties going to the even integer.  This is the rounding performed both by
the conversion in Go of an integer to `float64` (on the 53-bit significand)
and by the Go `fmt` fixed-point formatting `%.1f` (on the exact decimal
expansion of the binary value, see the `strconv` decimal rounding). -/
def rhe (num den : Nat) : Nat :=
  let q := num / den
  let r := num % den
  if den < 2 * r then q + 1
  else if 2 * r < den then q
  else if q % 2 = 1 then q + 1 else q

/-- The exact value of the Go conversion `float64(b)` for a
non-negative integer `b`: `b` is rounded to 53 significant bits, to
nearest, ties to even.  (Faithful for the whole non-negative `int64`
range of the Go code, which is far below the `float64` overflow
threshold.) -/
def floatOfNat (b : Nat) : Nat :=
  if b < 2 ^ 53 then b
  else
    let e := b.log2 + 1 - 53
    rhe b (2 ^ e) * 2 ^ e

/-- The accumulation loop of `ByteCountIEC`
(`for n := b / unit; n >= unit; n /= unit { div *= int64(unit); exp++ }`
with `unit = 1024`): given the current `div` accumulator `d`, the
current exponent `e` and the loop variable `n`, it returns the final
`(div, exp)` pair. -/
def iecLoop (d : Nat) (e : Nat) (n : Nat) : Nat × Nat :=
  if _h : 1024 ≤ n then iecLoop (d * 1024) (e + 1) (n / 1024) else (d, e)
termination_by n
decreasing_by exact Nat.div_lt_self (by omega) (by omega)

/-- The Go string constant `"KMGTPE"` that `ByteCountIEC` indexes with
the loop exponent. -/
def iecChars : List Char := ['K', 'M', 'G', 'T', 'P', 'E']

/-- The format `"%.1f %ciB"` of the scaled branch: `t` is the displayed
value in tenths (so `%.1f` shows `t / 10`, a dot, and the digit
`t % 10`) and `c` the chosen IEC letter. -/
def renderScaled (t : Nat) (c : Char) : String := s!"{t / 10}.{t % 10} {c}iB"

/-- Shallow embedding of `ByteCountIEC` (cmd.go lines 248-263).

```go
func ByteCountIEC(b int, uValue string) string {
    var unit int
    if uValue == "B" { unit = 1024 }
    if b < unit { return fmt.Sprintf("%d B", b) }
    div, exp := int64(unit), 0
    for n := b / unit; n >= unit; n /= unit { div *= int64(unit); exp++ }
    return fmt.Sprintf("%.1f %ciB", float64(b)/float64(div), "KMGTPE"[exp])
}
```

`none` models a Go runtime panic: the integer division `b / unit` with
`unit = 0` (any unit string other than `"B"`), and the index expression
`"KMGTPE"[exp]` with `exp ≥ 6`.  In the scaled branch `b ≥ 1024 > 0`,
`div` is a power of two that `float64` represents exactly, and the
quotient of a `float64` by a power of two is exact, so the displayed
value is exactly `floatOfNat b / div`; `%.1f` rounds its exact decimal
expansion to tenths, ties to even, which is `rhe (10 * floatOfNat b) div`. -/
def ByteCountIEC (b : Int) (uValue : String) : Option String :=
  let unit : Int := if uValue = "B" then 1024 else 0
  if b < unit then some s!"{b} B"
  else if unit = 0 then none
  else
    let p := iecLoop 1024 0 (b.toNat / 1024)
    match iecChars.get? p.2 with
    | none => none
    | some c => some (renderScaled (rhe (10 * floatOfNat b.toNat) p.1) c)

/-- The numeric value, in tenths, that the scaled branch of
`ByteCountIEC` displays for a byte count `b`. -/
def iecShownTenths (b : Nat) : Nat :=
  rhe (10 * floatOfNat b) (iecLoop 1024 0 (b / 1024)).1

/-- A machine type as consumed by the command for display: identifier,
category, CPU core count and memory magnitude (value already truncated
to `int` by the Go code, plus the unit symbol). -/
structure MachineType where
  id : String
  category : String
  cpu : Int
  memValue : Int
  memUnit : String
deriving Repr, DecidableEq

/-- One element of `machineTypes.Items`: the machine type together with
its `Available` mark. -/
structure MachineTypeItem where
  machineType : MachineType
  available : Bool
deriving Repr, DecidableEq

/-- The arguments of the one call to
`OCMClient.GetAvailableMachineTypesInRegion` (cmd.go line 202). -/
structure ListingCall where
  region : String
  availabilityZones : List String
  roleArn : String
deriving Repr, DecidableEq

/-- The environment of a single invocation of `run`: the parsed flag
values and the pre-determined result of every external collaborator
(the command is single-threaded, so each collaborator call is a plain
value; `Except.error e` is a Go `err != nil` with message `e`).
`DescribeAvailabilityZones` is called up to twice on the same client
and is modelled as one deterministic result. -/
structure Env where
  getDatabaseRegionList : Except String (List String)
  getRegion : Except String String
  getRegionList : Except String (List String)
  interactiveEnabled : Bool
  interactiveRegion : Except String String
  interactiveSelectAZ : Except String Bool
  describeAvailabilityZones : Except String (List String)
  interactiveAZs : Except String (List String)
  awsClientRegion : String
  azFlagChanged : Bool
  argsAvailabilityZones : List String
  argsRoleArn : String
  hasOutputFlag : Bool
  getMachineTypes : Except String (List MachineTypeItem)
  outputPrint : Except String Unit

/-- The observable outcome of `run`: process exit code (`0` when `run`
returns normally, `1` for `os.Exit(1)`, `2` for a Go runtime panic),
the `Reporter.Errorf` and `Reporter.Warnf` messages in order, the
arguments of the instance-type listing call when it was issued, the
serialized list in structured-output mode, and the table rows printed
(excluding the constant header line). -/
structure RunResult where
  exitCode : Nat
  errors : List String
  warnings : List String
  listingCall : Option ListingCall
  serialized : Option (List MachineType)
  tableRows : List String
deriving Repr, DecidableEq

/-- Lines 109-112: the `GetDatabaseRegionList` error is reported by
`Reporter.Errorf` but — unlike every other failure in `run` — is not
followed by `os.Exit`, so execution continues. -/
def dbRegionErrors (env : Env) : List String :=
  match env.getDatabaseRegionList with
  | .error e => [s!"Unable to retrieve supported regions: {e}"]
  | .ok _ => []

/-- Lines 116-145: resolve the effective region.  `aws.GetRegion`
(provider default / flag region), then `OCMClient.GetRegionList`, then
the non-empty check, then the optional interactive re-selection.  The
result is the region string used for the listing call, or the single
`Errorf` message of the `os.Exit(1)` that aborted the stage. -/
def regionStage (env : Env) : Except String String :=
  match env.getRegion with
  | .error e => .error s!"Error getting region: {e}"
  | .ok region =>
    match env.getRegionList with
    | .error e => .error e
    | .ok _regionList =>
      if region = "" then .error "Expected a valid AWS region"
      else if env.interactiveEnabled then
        match env.interactiveRegion with
        | .error e => .error s!"Expected a valid AWS region: {e}"
        | .ok region2 => .ok region2
      else .ok region

/-- Lines 147-184: determine the local `availabilityZones` list (flag
value when the flag was changed, interactive multi-select when the user
asked for it) together with the flag
`isAvailabilityZonesSet || selectAvailabilityZones` that guards the
validation block. -/
def zonesStage (env : Env) : Except String (List String × Bool) :=
  let isSet := env.azFlagChanged
  let azs := if isSet then env.argsAvailabilityZones else []
  if env.interactiveEnabled then
    match env.interactiveSelectAZ with
    | .error e => .error s!"Expected a valid value for select-availability-zones: {e}"
    | .ok sel =>
      if sel then
        match env.describeAvailabilityZones with
        | .error e => .error s!"Failed to get the list of the availability zone: {e}"
        | .ok _options =>
          match env.interactiveAZs with
          | .error e => .error s!"Expected valid availability zones: {e}"
          | .ok azs2 => .ok (azs2, true)
      else .ok (azs, isSet)
  else .ok (azs, isSet)

/-- The loop of lines 192-198: the first candidate zone that is not an
element of the authoritative zone list (`helper.Contains`), if any. -/
def firstInvalidZone (candidates authoritative : List String) : Option String :=
  candidates.find? (fun az => !authoritative.contains az)

/-- Lines 186-199 (under `isAvailabilityZonesSet || selectAvailabilityZones`):
fetch the authoritative zone list of the client region and fail on
the first requested zone that does not belong to it. -/
def zoneCheckStage (env : Env) (azs : List String) : Except String Unit :=
  match env.describeAvailabilityZones with
  | .error e => .error s!"Failed to get the list of the availability zone: {e}"
  | .ok auth =>
    match firstInvalidZone azs auth with
    | some az =>
      let reg := env.awsClientRegion
      .error s!"Expected a valid availability zone, \x27{az}\x27 doesn\x27t belong to region \x27{reg}\x27 availability zones"
    | none => .ok ()

/-- One table row (lines 238-243): `"%s\t%s\t%d\t%s"` over the machine
identifier, category, CPU count and `ByteCountIEC`-formatted memory of
the machine type.  `none` models the `ByteCountIEC` call of the row panicking. -/
def renderRow (m : MachineType) : Option String :=
  match ByteCountIEC m.memValue m.memUnit with
  | none => none
  | some mem =>
    let i := m.id
    let cat := m.category
    let cpu := m.cpu
    some s!"{i}\t{cat}\t{cpu}\t{mem}"

/-- The table loop of lines 233-244: entries marked unavailable are
skipped; the remaining rows are printed in order.  The second component
records whether the `ByteCountIEC` call of some row panicked (aborting the
loop). -/
def renderTable : List MachineTypeItem → List String × Bool
  | [] => ([], false)
  | item :: rest =>
    if !item.available then renderTable rest
    else
      match renderRow item.machineType with
      | none => ([], true)
      | some row =>
        let p := renderTable rest
        (row :: p.1, p.2)

/-- Lines 201-246: issue the listing call and render the result, either
as structured output (`output.HasFlag()`) or as the table.  `errs` and
`warns` are produced by this phase only; `run` prepends the
`dbRegionErrors`. -/
def listingPhase (env : Env) (region : String) : RunResult :=
  let call : ListingCall := ⟨region, env.argsAvailabilityZones, env.argsRoleArn⟩
  match env.getMachineTypes with
  | .error e => ⟨1, [s!"Failed to fetch instance types: {e}"], [], some call, none, []⟩
  | .ok items =>
    if env.hasOutputFlag then
      let instanceTypes := items.map (fun i => i.machineType)
      match env.outputPrint with
      | .error e => ⟨1, [e], [], some call, none, []⟩
      | .ok _ => ⟨0, [], [], some call, some instanceTypes, []⟩
    else if items.length = 0 then
      ⟨1, [], ["There are no machine types supported for your account. Contact Red Hat support."],
        some call, none, []⟩
    else
      let p := renderTable items
      ⟨if p.2 then 2 else 0, [], [], some call, none, p.1⟩

/-- The body of `run` after the `GetDatabaseRegionList` report: the
three stages in order, each failure being one `Errorf` message followed
by `os.Exit(1)`, then the listing phase. -/
def runAfterDb (env : Env) : RunResult :=
  match regionStage env with
  | .error m => ⟨1, [m], [], none, none, []⟩
  | .ok region =>
    match zonesStage env with
    | .error m => ⟨1, [m], [], none, none, []⟩
    | .ok azp =>
      match (if azp.2 then zoneCheckStage env azp.1 else .ok ()) with
      | .error m => ⟨1, [m], [], none, none, []⟩
      | .ok _ => listingPhase env region

/-- Shallow embedding of `run` (cmd.go lines 102-246). -/
def run (env : Env) : RunResult :=
  let res := runAfterDb env
  { res with errors := dbRegionErrors env ++ res.errors }

/-! ### Concrete environments used by the witnesses and counterexamples -/

/-- A sample machine type. -/
def mt0 : MachineType := ⟨"m5.xlarge", "general_purpose", 4, 500, "B"⟩

/-- A happy-path environment: region flag resolves to `"us-east-1"`,
no interactive mode, no zone flag, one available machine type, table
mode. -/
def env0 : Env where
  getDatabaseRegionList := .ok ["us-east-1", "us-west-2"]
  getRegion := .ok "us-east-1"
  getRegionList := .ok ["us-east-1", "us-west-2"]
  interactiveEnabled := false
  interactiveRegion := .ok "us-east-1"
  interactiveSelectAZ := .ok false
  describeAvailabilityZones := .ok ["us-east-1a", "us-east-1b"]
  interactiveAZs := .ok []
  awsClientRegion := "us-east-1"
  azFlagChanged := false
  argsAvailabilityZones := []
  argsRoleArn := ""
  hasOutputFlag := false
  getMachineTypes := .ok [⟨mt0, true⟩]
  outputPrint := .ok ()

/-- `env0` with the zone flag set to a list whose second entry is not a
zone of the region. -/
def envC1 : Env :=
  { env0 with azFlagChanged := true, argsAvailabilityZones := ["us-east-1a", "us-east-1z"] }

/-- `env0` with a fetched machine-type list whose only entry is marked
unavailable, in table mode. -/
def envC3 : Env := { env0 with getMachineTypes := .ok [⟨mt0, false⟩] }

/-- `env0` with an empty fetched machine-type list, in table mode. -/
def envC3w : Env := { env0 with getMachineTypes := .ok [] }

/-- `env0` with a failing `GetDatabaseRegionList` fetch (and structured
output, so that the run completes without touching the table). -/
def envC4 : Env :=
  { env0 with getDatabaseRegionList := .error "boom", hasOutputFlag := true }

/-- `env0` with a failing `aws.GetRegion`. -/
def envC4b : Env := { env0 with getRegion := .error "nope" }

/-- `env0` in interactive mode with zones chosen through the
multi-select prompt (the zone flag itself untouched). -/
def envC8 : Env :=
  { env0 with interactiveEnabled := true, interactiveSelectAZ := .ok true,
              interactiveAZs := .ok ["us-east-1a"] }

/-- `env0` in structured-output mode with one unavailable machine
type. -/
def envC9 : Env :=
  { env0 with hasOutputFlag := true, getMachineTypes := .ok [⟨mt0, false⟩] }

/-! ### Lemmas about the formatter -/

theorem rhe_ge (num den : Nat) : num / den ≤ rhe num den := by
  simp only [rhe]
  split_ifs <;> omega

theorem rhe_le (num den : Nat) : rhe num den ≤ num / den + 1 := by
  simp only [rhe]
  split_ifs <;> omega

theorem rhe_mono (den a b : Nat) (hab : a ≤ b) : rhe a den ≤ rhe b den := by
  rcases Nat.lt_or_ge (a / den) (b / den) with h | h
  · have h1 := rhe_le a den
    have h2 := rhe_ge b den
    omega
  · have hq : a / den = b / den := Nat.le_antisymm (Nat.div_le_div_right hab) h
    have ha := Nat.div_add_mod a den
    have hb := Nat.div_add_mod b den
    have hprod : den * (a / den) = den * (b / den) := by rw [hq]
    have hr : a % den ≤ b % den := by omega
    simp only [rhe]
    rw [hq]
    split_ifs <;> omega

theorem floatOfNat_big (b : Nat) (hb : 2 ^ 53 ≤ b) :
    floatOfNat b = rhe b (2 ^ (b.log2 + 1 - 53)) * 2 ^ (b.log2 + 1 - 53) := by
  simp only [floatOfNat]
  rw [if_neg (by omega)]

theorem log2_ge_of_le (b k : Nat) (hb : 2 ^ k ≤ b) : k ≤ b.log2 := by
  have hb0 : b ≠ 0 := by
    have : 0 < 2 ^ k := Nat.pos_pow_of_pos k (by omega)
    omega
  exact (Nat.le_log2 hb0).mpr hb

theorem floatOfNat_big_lb (b : Nat) (hb : 2 ^ 53 ≤ b) : 2 ^ b.log2 ≤ floatOfNat b := by
  have hb0 : b ≠ 0 := by
    have : 0 < 2 ^ 53 := Nat.pos_pow_of_pos 53 (by omega)
    omega
  have hl : 53 ≤ b.log2 := log2_ge_of_le b 53 hb
  have hel : b.log2 + 1 - 53 ≤ b.log2 := by omega
  have h1 : 2 ^ (b.log2 - (b.log2 + 1 - 53)) ≤ b / 2 ^ (b.log2 + 1 - 53) := by
    have h2 := Nat.div_le_div_right (c := 2 ^ (b.log2 + 1 - 53)) (Nat.log2_self_le hb0)
    rwa [Nat.pow_div hel (by omega)] at h2
  calc 2 ^ b.log2
      = 2 ^ (b.log2 - (b.log2 + 1 - 53)) * 2 ^ (b.log2 + 1 - 53) := by
        rw [← Nat.pow_add]
        congr 1
        omega
    _ ≤ rhe b (2 ^ (b.log2 + 1 - 53)) * 2 ^ (b.log2 + 1 - 53) :=
        Nat.mul_le_mul (Nat.le_trans h1 (rhe_ge b _)) (Nat.le_refl _)
    _ = floatOfNat b := (floatOfNat_big b hb).symm

theorem floatOfNat_big_ub (b : Nat) (hb : 2 ^ 53 ≤ b) : floatOfNat b ≤ 2 ^ (b.log2 + 1) := by
  have hl : 53 ≤ b.log2 := log2_ge_of_le b 53 hb
  have h1 : b / 2 ^ (b.log2 + 1 - 53) < 2 ^ (b.log2 + 1 - (b.log2 + 1 - 53)) := by
    apply Nat.div_lt_of_lt_mul
    calc b < 2 ^ (b.log2 + 1) := Nat.lt_log2_self
      _ = 2 ^ (b.log2 + 1 - 53) * 2 ^ (b.log2 + 1 - (b.log2 + 1 - 53)) := by
          rw [← Nat.pow_add]
          congr 1
          omega
  calc floatOfNat b
      = rhe b (2 ^ (b.log2 + 1 - 53)) * 2 ^ (b.log2 + 1 - 53) := floatOfNat_big b hb
    _ ≤ (b / 2 ^ (b.log2 + 1 - 53) + 1) * 2 ^ (b.log2 + 1 - 53) :=
        Nat.mul_le_mul (rhe_le b _) (Nat.le_refl _)
    _ ≤ 2 ^ (b.log2 + 1 - (b.log2 + 1 - 53)) * 2 ^ (b.log2 + 1 - 53) :=
        Nat.mul_le_mul (by omega) (Nat.le_refl _)
    _ = 2 ^ (b.log2 + 1) := by
        rw [← Nat.pow_add]
        congr 1
        omega

theorem floatOfNat_mono (a b : Nat) (hab : a ≤ b) : floatOfNat a ≤ floatOfNat b := by
  by_cases hbs : b < 2 ^ 53
  · have has : a < 2 ^ 53 := Nat.lt_of_le_of_lt hab hbs
    simp only [floatOfNat, if_pos has, if_pos hbs]
    exact hab
  · push_neg at hbs
    have hb0 : b ≠ 0 := by
      have : 0 < 2 ^ 53 := Nat.pos_pow_of_pos 53 (by omega)
      omega
    by_cases has : a < 2 ^ 53
    · have h53 : 53 ≤ b.log2 := log2_ge_of_le b 53 hbs
      have h1 : (2 : Nat) ^ 53 ≤ 2 ^ b.log2 := Nat.pow_le_pow_right (by omega) h53
      have h2 := floatOfNat_big_lb b hbs
      have hfa : floatOfNat a = a := by
        simp only [floatOfNat]
        rw [if_pos has]
      rw [hfa]
      omega
    · push_neg at has
      have ha0 : a ≠ 0 := by
        have : 0 < 2 ^ 53 := Nat.pos_pow_of_pos 53 (by omega)
        omega
      have hlab : a.log2 ≤ b.log2 :=
        log2_ge_of_le b a.log2 (Nat.le_trans (Nat.log2_self_le ha0) hab)
      rcases Nat.lt_or_ge a.log2 b.log2 with hl | hl
      · have h1 := floatOfNat_big_ub a has
        have h2 := floatOfNat_big_lb b hbs
        have h3 : (2 : Nat) ^ (a.log2 + 1) ≤ 2 ^ b.log2 := Nat.pow_le_pow_right (by omega) (by omega)
        omega
      · have hll : a.log2 = b.log2 := Nat.le_antisymm hlab hl
        rw [floatOfNat_big a has, floatOfNat_big b hbs, hll]
        exact Nat.mul_le_mul (rhe_mono _ a b hab) (Nat.le_refl _)

theorem iecLoop_base (d e n : Nat) (h : n < 1024) : iecLoop d e n = (d, e) := by
  rw [iecLoop.eq_def]
  rw [dif_neg (by omega)]

theorem iecLoop_step (d e n : Nat) (h : 1024 ≤ n) :
    iecLoop d e n = iecLoop (d * 1024) (e + 1) (n / 1024) := by
  conv_lhs => rw [iecLoop.eq_def]
  rw [dif_pos h]

theorem iecLoop_exp_le (k : Nat) : ∀ n d e : Nat, n < 1024 ^ (k + 1) → (iecLoop d e n).2 ≤ e + k := by
  induction k with
  | zero =>
    intro n d e h
    rw [pow_one] at h
    rw [iecLoop_base d e n h]
    simp
  | succ k ih =>
    intro n d e h
    by_cases hn : 1024 ≤ n
    · rw [iecLoop_step d e n hn]
      have hdiv : n / 1024 < 1024 ^ (k + 1) := by
        apply Nat.div_lt_of_lt_mul
        calc n < 1024 ^ (k + 2) := h
          _ = 1024 * 1024 ^ (k + 1) := by ring
      have := ih (n / 1024) (d * 1024) (e + 1) hdiv
      omega
    · rw [iecLoop_base d e n (by omega)]
      omega

theorem iecLoop_fst_ge (n d e : Nat) : d ≤ (iecLoop d e n).1 := by
  by_cases hn : 1024 ≤ n
  · rw [iecLoop_step d e n hn]
    calc d ≤ d * 1024 := by omega
      _ ≤ (iecLoop (d * 1024) (e + 1) (n / 1024)).1 := iecLoop_fst_ge (n / 1024) (d * 1024) (e + 1)
  · rw [iecLoop_base d e n (by omega)]
termination_by n
decreasing_by exact Nat.div_lt_self (by omega) (by omega)

/-- For any byte count below `2 ^ 63` (the non-negative `int64` range),
the loop exponent stays at most `5`, so `"KMGTPE"[exp]` is in bounds. -/
theorem iecLoop_exp_le_five (b : Nat) (hb : b < 2 ^ 63) : (iecLoop 1024 0 (b / 1024)).2 ≤ 5 := by
  have hdiv : b / 1024 < 1024 ^ 6 := by
    apply Nat.div_lt_of_lt_mul
    calc b < 2 ^ 63 := hb
      _ ≤ 1024 * 1024 ^ 6 := by norm_num
  have := iecLoop_exp_le 5 (b / 1024) 1024 0 hdiv
  omega

theorem byteCountIEC_B_small (b : Nat) (h : b < 1024) :
    ByteCountIEC (b : Int) "B" = some s!"{b} B" := by
  have h' : (b : Int) < 1024 := by exact_mod_cast h
  simp only [ByteCountIEC]
  rw [if_true, if_pos h']
  rfl

theorem byteCountIEC_B_scaled (b : Nat) (hb : 1024 ≤ b) (c : Char)
    (hc : iecChars.get? (iecLoop 1024 0 (b / 1024)).2 = some c) :
    ByteCountIEC (b : Int) "B" = some (renderScaled (iecShownTenths b) c) := by
  have h1 : ¬ ((b : Int) < 1024) := by
    rw [Int.not_lt]
    exact_mod_cast hb
  simp only [ByteCountIEC]
  rw [if_true, if_neg h1, if_neg (by norm_num : ¬ (1024 : Int) = 0)]
  rw [Int.toNat_natCast, hc]
  rfl

/-! ### Formatter claims -/

/-- C2, counterexample: contrary to the claim that `ByteCountIEC` has
no error path for non-negative `b` and a unit other than `"B"`, at
`b = 0`, unit `"GiB"` the Go code reaches `n := b / unit` with
`unit = 0` and panics with an integer division by zero (modelled
`none`), instead of returning `"0 B"`. -/
theorem c2_counterexample : ByteCountIEC 0 "GiB" = none := by decide

/-- C2 (amended): for every non-negative `b` and every unit string
other than `"B"`, the scaling base `unit` stays `0`, the guard
`b < unit` fails, and the loop initializer `b / unit` faults with an
integer division by zero (modelled `none`); the unscaled `"<b> B"`
display is never produced for such inputs. -/
theorem c2_nonB_unit_faults (b : Int) (u : String) (hb : 0 ≤ b) (hu : ¬ u = "B") :
    ByteCountIEC b u = none := by
  simp only [ByteCountIEC, if_neg hu]
  rw [if_neg (by omega : ¬ b < 0), if_true]

/-- C2 witness at `b = 0`, `u = "KB"`. -/
theorem c2_nonB_unit_faults_witness :
    (0 : Int) ≤ 0 ∧ ¬ ("KB" : String) = "B" ∧ ByteCountIEC 0 "KB" = none :=
  ⟨Int.le_refl 0, by decide, c2_nonB_unit_faults 0 "KB" (Int.le_refl 0) (by decide)⟩

/-- C5: for `1024 ≤ b < 1024 ^ 2` and unit `"B"`, the output is
`"<x.y> KiB"` where `x.y` is `b / 1024` rounded to one decimal place
(nearest tenth, ties to even — the rounding that the Go `%.1f` performs
on the exact value `float64(b) / 1024`, which is exact in this band):
the displayed tenths are `rhe (10 * b) 1024`. -/
theorem c5_kib_band (b : Nat) (h1 : 1024 ≤ b) (h2 : b < 1024 ^ 2) :
    ByteCountIEC (b : Int) "B" = some (renderScaled (rhe (10 * b) 1024) 'K') := by
  have hdiv : b / 1024 < 1024 := by
    apply Nat.div_lt_of_lt_mul
    calc b < 1024 ^ 2 := h2
      _ = 1024 * 1024 := by norm_num
  have hloop : iecLoop 1024 0 (b / 1024) = (1024, 0) := iecLoop_base _ _ _ hdiv
  have hc : iecChars.get? (iecLoop 1024 0 (b / 1024)).2 = some 'K' := by
    rw [hloop]
    rfl
  have hsmall : b < 2 ^ 53 := by
    have : (1024 : Nat) ^ 2 ≤ 2 ^ 53 := by norm_num
    omega
  rw [byteCountIEC_B_scaled b h1 'K' hc]
  have ht : iecShownTenths b = rhe (10 * b) 1024 := by
    simp only [iecShownTenths, hloop, floatOfNat]
    rw [if_pos hsmall]
  rw [ht]

/-- C5 witness: `b = 2048` yields exactly `"2.0 KiB"`. -/
theorem c5_kib_band_witness :
    (1024 ≤ 2048 ∧ 2048 < 1024 ^ 2) ∧ ByteCountIEC ((2048 : Nat) : Int) "B" = some "2.0 KiB" := by
  refine ⟨by norm_num, ?_⟩
  rw [c5_kib_band 2048 (by norm_num) (by norm_num)]
  decide

/-- C6: for every `b < 1024` and unit `"B"`, the output is exactly
`"<b> B"`, unscaled. -/
theorem c6_small_bytes (b : Nat) (h : b < 1024) :
    ByteCountIEC (b : Int) "B" = some s!"{b} B" :=
  byteCountIEC_B_small b h

/-- C6 witness: `b = 500` yields exactly `"500 B"`. -/
theorem c6_small_bytes_witness :
    (500 : Nat) < 1024 ∧ ByteCountIEC ((500 : Nat) : Int) "B" = some "500 B" := by
  refine ⟨by norm_num, ?_⟩
  rw [c6_small_bytes 500 (by norm_num)]
  rfl

/-- C7: within one magnitude band (same `(div, exp)` result of the
scaling loop), the displayed numeric value of `ByteCountIEC` with unit
`"B"` is monotone in `b`: both byte counts render as
`"<tenths> <c>iB"` with the same letter `c`, and the tenths do not
decrease.  (The `b < 1024` band displays `b` itself and is trivially
monotone.) -/
theorem c7_mono_in_band (b1 b2 : Nat) (h12 : b1 ≤ b2) (h1 : 1024 ≤ b1) (h63 : b2 < 2 ^ 63)
    (hband : iecLoop 1024 0 (b1 / 1024) = iecLoop 1024 0 (b2 / 1024)) :
    iecShownTenths b1 ≤ iecShownTenths b2 ∧
    ∃ c : Char,
      ByteCountIEC (b1 : Int) "B" = some (renderScaled (iecShownTenths b1) c) ∧
      ByteCountIEC (b2 : Int) "B" = some (renderScaled (iecShownTenths b2) c) := by
  constructor
  · unfold iecShownTenths
    rw [hband]
    exact rhe_mono _ _ _ (Nat.mul_le_mul (Nat.le_refl 10) (floatOfNat_mono b1 b2 h12))
  · have hexp2 : (iecLoop 1024 0 (b2 / 1024)).2 ≤ 5 := iecLoop_exp_le_five b2 h63
    cases hg : iecChars.get? (iecLoop 1024 0 (b2 / 1024)).2 with
    | none =>
      exfalso
      have := List.get?_eq_none.mp hg
      simp only [iecChars, List.length_cons, List.length_nil] at this
      omega
    | some c =>
      exact ⟨c, byteCountIEC_B_scaled b1 h1 c (by rw [hband]; exact hg),
        byteCountIEC_B_scaled b2 (Nat.le_trans h1 h12) c hg⟩

/-- C7 witness: `b1 = 2048`, `b2 = 3000` lie in the KiB band. -/
theorem c7_mono_in_band_witness :
    ((2048 : Nat) ≤ 3000 ∧ 1024 ≤ 2048 ∧ (3000 : Nat) < 2 ^ 63 ∧
      iecLoop 1024 0 (2048 / 1024) = iecLoop 1024 0 (3000 / 1024)) ∧
    iecShownTenths 2048 ≤ iecShownTenths 3000 := by
  have hband : iecLoop 1024 0 (2048 / 1024) = iecLoop 1024 0 (3000 / 1024) := by norm_num
  exact ⟨⟨by norm_num, by norm_num, by norm_num, hband⟩,
    (c7_mono_in_band 2048 3000 (by norm_num) (by norm_num) (by norm_num) hband).1⟩

/-- C10: for every non-negative machine integer `b` (`b < 2 ^ 63`)
with unit `"B"`, the loop exponent is at most `5`, so the lookup
`"KMGTPE"[exp]` is in bounds and `ByteCountIEC` returns a string
(never panics). -/
theorem c10_exp_bounded (b : Nat) (hb : b < 2 ^ 63) :
    (iecLoop 1024 0 (b / 1024)).2 ≤ 5 ∧ (ByteCountIEC (b : Int) "B").isSome = true := by
  have hexp : (iecLoop 1024 0 (b / 1024)).2 ≤ 5 := iecLoop_exp_le_five b hb
  refine ⟨hexp, ?_⟩
  by_cases hsmall : b < 1024
  · rw [byteCountIEC_B_small b hsmall]
    rfl
  · cases hg : iecChars.get? (iecLoop 1024 0 (b / 1024)).2 with
    | none =>
      exfalso
      have := List.get?_eq_none.mp hg
      simp only [iecChars, List.length_cons, List.length_nil] at this
      omega
    | some c =>
      rw [byteCountIEC_B_scaled b (by omega) c hg]
      rfl

/-- C10 witness at `b = 2 ^ 40` (the TiB band). -/
theorem c10_exp_bounded_witness :
    (2 ^ 40 : Nat) < 2 ^ 63 ∧
    (iecLoop 1024 0 (2 ^ 40 / 1024)).2 ≤ 5 ∧
    (ByteCountIEC ((2 ^ 40 : Nat) : Int) "B").isSome = true := by
  refine ⟨by norm_num, ?_, ?_⟩
  · exact (c10_exp_bounded (2 ^ 40) (by norm_num)).1
  · exact (c10_exp_bounded (2 ^ 40) (by norm_num)).2


/-! ### Lemmas about the run workflow -/

theorem run_exitCode (env : Env) : (run env).exitCode = (runAfterDb env).exitCode := rfl

theorem run_listingCall (env : Env) : (run env).listingCall = (runAfterDb env).listingCall := rfl

theorem run_warnings (env : Env) : (run env).warnings = (runAfterDb env).warnings := rfl

theorem run_serialized (env : Env) : (run env).serialized = (runAfterDb env).serialized := rfl

theorem run_tableRows (env : Env) : (run env).tableRows = (runAfterDb env).tableRows := rfl

theorem run_errors (env : Env) :
    (run env).errors = dbRegionErrors env ++ (runAfterDb env).errors := rfl

/-- When the three resolution stages succeed, `run` is the listing
phase (every earlier failure would have exited first). -/
theorem runAfterDb_listing (env : Env) (region : String) (azs : List String) (flag : Bool)
    (h1 : regionStage env = Except.ok region) (h2 : zonesStage env = Except.ok (azs, flag))
    (h3 : flag = true → zoneCheckStage env azs = Except.ok ()) :
    runAfterDb env = listingPhase env region := by
  unfold runAfterDb
  rw [h1, h2]
  cases flag with
  | false => rfl
  | true =>
    have hc := h3 rfl
    simp [hc]

/-- The listing phase always records the listing call, with the
flag-supplied zone list and role ARN as arguments. -/
theorem listingPhase_call (env : Env) (region : String) :
    (listingPhase env region).listingCall =
      some ⟨region, env.argsAvailabilityZones, env.argsRoleArn⟩ := by
  unfold listingPhase
  cases hm : env.getMachineTypes with
  | error e => rfl
  | ok items =>
    by_cases ho : env.hasOutputFlag
    · simp only [if_pos ho]
      cases hp : env.outputPrint with
      | error e => rfl
      | ok u => rfl
    · simp only [if_neg ho]
      by_cases hl : items.length = 0
      · simp only [if_pos hl]
      · simp only [if_neg hl]

/-- A fetched list all of whose entries are unavailable renders as the
empty table, with no panic. -/
theorem renderTable_all_unavailable (items : List MachineTypeItem)
    (h : items.all (fun i => !i.available) = true) : renderTable items = ([], false) := by
  induction items with
  | nil => rfl
  | cons it rest ih =>
    rw [List.all_cons, Bool.and_eq_true] at h
    unfold renderTable
    rw [if_pos h.1]
    exact ih h.2

/-! ### Run-workflow claims -/

/-- C1: once a requested zone list is present (flag-supplied or
interactively selected, i.e. `zonesStage` succeeds with its guard set)
and the authoritative zone list of the region was fetched, then: if
every requested zone belongs to the authoritative list the command
proceeds to the listing call; otherwise it exits with code 1 before the
listing call, reporting the first offending zone and the client
region. -/
theorem c1_zone_validation (env : Env) (region reg : String) (azs auth : List String)
    (hr : regionStage env = Except.ok region)
    (hz : zonesStage env = Except.ok (azs, true))
    (ha : env.describeAvailabilityZones = Except.ok auth)
    (hreg : env.awsClientRegion = reg) :
    ((∀ az ∈ azs, auth.contains az = true) →
      (run env).listingCall = some ⟨region, env.argsAvailabilityZones, env.argsRoleArn⟩) ∧
    (∀ az, firstInvalidZone azs auth = some az →
      az ∈ azs ∧ auth.contains az = false ∧
      (run env).exitCode = 1 ∧ (run env).listingCall = none ∧
      s!"Expected a valid availability zone, \x27{az}\x27 doesn\x27t belong to region \x27{reg}\x27 availability zones"
        ∈ (run env).errors) := by
  constructor
  · intro hall
    have hnone : firstInvalidZone azs auth = none := by
      unfold firstInvalidZone
      rw [List.find?_eq_none]
      intro x hx
      rw [hall x hx]
      decide
    have hcheck : zoneCheckStage env azs = Except.ok () := by
      unfold zoneCheckStage
      simp only [ha, hnone]
    rw [run_listingCall, runAfterDb_listing env region azs true hr hz (fun _ => hcheck),
      listingPhase_call]
  · intro az haz
    have haz' : List.find? (fun z => !auth.contains z) azs = some az := haz
    have hmem : az ∈ azs := List.mem_of_find?_eq_some haz'
    have hcon : auth.contains az = false := by simpa using List.find?_some haz'
    have hcheck : zoneCheckStage env azs =
        Except.error
          s!"Expected a valid availability zone, \x27{az}\x27 doesn\x27t belong to region \x27{reg}\x27 availability zones" := by
      unfold zoneCheckStage
      simp only [ha, haz, hreg]
    have hrun : runAfterDb env =
        ⟨1, [s!"Expected a valid availability zone, \x27{az}\x27 doesn\x27t belong to region \x27{reg}\x27 availability zones"],
          [], none, none, []⟩ := by
      unfold runAfterDb
      rw [hr, hz]
      simp [hcheck]
    refine ⟨hmem, hcon, ?_, ?_, ?_⟩
    · rw [run_exitCode, hrun]
    · rw [run_listingCall, hrun]
    · rw [run_errors, hrun]
      exact List.mem_append_right _ (List.mem_singleton.mpr rfl)

/-- C1 witness: requesting `["us-east-1a", "us-east-1z"]` against the
authoritative list `["us-east-1a", "us-east-1b"]` fails citing
`us-east-1z`, before any listing call. -/
theorem c1_zone_validation_witness :
    firstInvalidZone ["us-east-1a", "us-east-1z"] ["us-east-1a", "us-east-1b"] =
        some "us-east-1z" ∧
    (run envC1).exitCode = 1 ∧ (run envC1).listingCall = none ∧
    "Expected a valid availability zone, \x27us-east-1z\x27 doesn\x27t belong to region \x27us-east-1\x27 availability zones"
      ∈ (run envC1).errors := by
  have h := (c1_zone_validation envC1 "us-east-1" "us-east-1"
    ["us-east-1a", "us-east-1z"] ["us-east-1a", "us-east-1b"] rfl rfl rfl rfl).2
    "us-east-1z" (by decide)
  exact ⟨by decide, h.2.2.1, h.2.2.2.1, h.2.2.2.2⟩

/-- C3, counterexample: a fetched list with one entry that is marked
unavailable has an empty filtered result set, yet in table mode the
command prints an empty table and exits 0 with no warning — the
emptiness check at line 224 runs on the unfiltered `machineTypes.Items`,
before the availability filter of the table loop. -/
theorem c3_counterexample :
    envC3.hasOutputFlag = false ∧
    envC3.getMachineTypes = Except.ok [⟨mt0, false⟩] ∧
    [(⟨mt0, false⟩ : MachineTypeItem)].filter (fun i => i.available) = [] ∧
    (run envC3).exitCode = 0 ∧ (run envC3).warnings = [] ∧ (run envC3).tableRows = [] := by
  refine ⟨rfl, rfl, ?_, ?_, ?_, ?_⟩ <;> decide

/-- C3 (amended): in table mode the warning and the exit code 1 are
produced exactly when the *fetched* machine-type list is empty; a
non-empty fetched list all of whose entries are unavailable instead
yields an empty table, no warning, and exit code 0. -/
theorem c3_table_empty (env : Env) (region : String) (azs : List String) (flag : Bool)
    (items : List MachineTypeItem)
    (h1 : regionStage env = Except.ok region) (h2 : zonesStage env = Except.ok (azs, flag))
    (h3 : flag = true → zoneCheckStage env azs = Except.ok ())
    (ho : env.hasOutputFlag = false) (hm : env.getMachineTypes = Except.ok items) :
    (items = [] →
      (run env).exitCode = 1 ∧
      (run env).warnings =
        ["There are no machine types supported for your account. Contact Red Hat support."]) ∧
    (items ≠ [] → items.all (fun i => !i.available) = true →
      (run env).exitCode = 0 ∧ (run env).warnings = [] ∧ (run env).tableRows = []) := by
  have hrun : runAfterDb env = listingPhase env region :=
    runAfterDb_listing env region azs flag h1 h2 h3
  constructor
  · intro hnil
    subst hnil
    constructor
    · rw [run_exitCode, hrun]
      unfold listingPhase
      simp [hm, ho]
    · rw [run_warnings, hrun]
      unfold listingPhase
      simp [hm, ho]
  · intro hne hall
    have hrt : renderTable items = ([], false) := renderTable_all_unavailable items hall
    have hlen : ¬ items.length = 0 := by
      cases items with
      | nil => exact absurd rfl hne
      | cons a l => simp
    refine ⟨?_, ?_, ?_⟩
    · rw [run_exitCode, hrun]
      unfold listingPhase
      simp [hm, ho, hlen, hrt]
    · rw [run_warnings, hrun]
      unfold listingPhase
      simp [hm, ho, hlen]
    · rw [run_tableRows, hrun]
      unfold listingPhase
      simp [hm, ho, hlen, hrt]

/-- C3 witness: an empty fetched list in table mode warns and exits 1. -/
theorem c3_table_empty_witness :
    (run envC3w).exitCode = 1 ∧
    (run envC3w).warnings =
      ["There are no machine types supported for your account. Contact Red Hat support."] :=
  (c3_table_empty envC3w "us-east-1" [] false [] rfl rfl
    (fun h => absurd h (by decide)) rfl rfl).1 rfl

/-- C4, counterexample: a failing `GetDatabaseRegionList` fetch is
reported but does *not* terminate the command — there is no `os.Exit`
after the `Errorf` at line 111, so the run continues all the way to the
listing call and exits 0. -/
theorem c4_counterexample :
    envC4.getDatabaseRegionList = Except.error "boom" ∧
    (run envC4).errors = ["Unable to retrieve supported regions: boom"] ∧
    (run envC4).exitCode = 0 ∧ (run envC4).listingCall.isSome = true := by
  refine ⟨rfl, ?_, ?_, ?_⟩ <;> decide

/-- C4 (amended): failures of `aws.GetRegion`, of
`OCMClient.GetRegionList` and of the zone-list fetch are each reported
and terminate the command with exit code 1 before the listing call;
a failure of the `GetDatabaseRegionList` fetch is reported but the
command continues. -/
theorem c4_fetch_failures (env : Env) :
    (∀ e, env.getRegion = Except.error e →
      (run env).exitCode = 1 ∧ (run env).listingCall = none ∧
      s!"Error getting region: {e}" ∈ (run env).errors) ∧
    (∀ e region, env.getRegion = Except.ok region → env.getRegionList = Except.error e →
      (run env).exitCode = 1 ∧ (run env).listingCall = none ∧ e ∈ (run env).errors) ∧
    (∀ e region azs, regionStage env = Except.ok region →
      zonesStage env = Except.ok (azs, true) →
      env.describeAvailabilityZones = Except.error e →
      (run env).exitCode = 1 ∧ (run env).listingCall = none ∧
      s!"Failed to get the list of the availability zone: {e}" ∈ (run env).errors) ∧
    (∀ e, env.getDatabaseRegionList = Except.error e →
      s!"Unable to retrieve supported regions: {e}" ∈ (run env).errors) := by
  refine ⟨?_, ?_, ?_, ?_⟩
  · intro e he
    have hstage : regionStage env = Except.error s!"Error getting region: {e}" := by
      unfold regionStage
      simp only [he]
    have hrun : runAfterDb env = ⟨1, [s!"Error getting region: {e}"], [], none, none, []⟩ := by
      unfold runAfterDb
      simp only [hstage]
    refine ⟨?_, ?_, ?_⟩
    · rw [run_exitCode, hrun]
    · rw [run_listingCall, hrun]
    · rw [run_errors, hrun]
      exact List.mem_append_right _ (List.mem_singleton.mpr rfl)
  · intro e region hok he
    have hstage : regionStage env = Except.error e := by
      unfold regionStage
      simp only [hok, he]
    have hrun : runAfterDb env = ⟨1, [e], [], none, none, []⟩ := by
      unfold runAfterDb
      simp only [hstage]
    refine ⟨?_, ?_, ?_⟩
    · rw [run_exitCode, hrun]
    · rw [run_listingCall, hrun]
    · rw [run_errors, hrun]
      exact List.mem_append_right _ (List.mem_singleton.mpr rfl)
  · intro e region azs hr hz hd
    have hcheck : zoneCheckStage env azs =
        Except.error s!"Failed to get the list of the availability zone: {e}" := by
      unfold zoneCheckStage
      simp only [hd]
    have hrun : runAfterDb env =
        ⟨1, [s!"Failed to get the list of the availability zone: {e}"], [], none, none, []⟩ := by
      unfold runAfterDb
      rw [hr, hz]
      simp [hcheck]
    refine ⟨?_, ?_, ?_⟩
    · rw [run_exitCode, hrun]
    · rw [run_listingCall, hrun]
    · rw [run_errors, hrun]
      exact List.mem_append_right _ (List.mem_singleton.mpr rfl)
  · intro e he
    rw [run_errors]
    apply List.mem_append_left
    unfold dbRegionErrors
    rw [he]
    exact List.mem_singleton.mpr rfl

/-- C4 witness: a failing `aws.GetRegion` terminates with exit code 1
before the listing call. -/
theorem c4_fetch_failures_witness :
    envC4b.getRegion = Except.error "nope" ∧
    (run envC4b).exitCode = 1 ∧ (run envC4b).listingCall = none ∧
    "Error getting region: nope" ∈ (run envC4b).errors := by
  have h := (c4_fetch_failures envC4b).1 "nope" rfl
  exact ⟨rfl, h.1, h.2.1, h.2.2⟩

/-- C8: whenever the listing call is issued, its zone argument is the
flag value `args.availabilityZones` (and its role argument the flag
`args.roleArn`) — the locally built `availabilityZones` list, in
particular an interactively selected one, is never passed to it. -/
theorem c8_listing_zone_argument (env : Env) (c : ListingCall)
    (h : (run env).listingCall = some c) :
    c.availabilityZones = env.argsAvailabilityZones ∧ c.roleArn = env.argsRoleArn := by
  rw [run_listingCall] at h
  unfold runAfterDb at h
  cases hs : regionStage env with
  | error m =>
    rw [hs] at h
    simp at h
  | ok region =>
    rw [hs] at h
    cases hz : zonesStage env with
    | error m =>
      rw [hz] at h
      simp at h
    | ok azp =>
      rw [hz] at h
      dsimp only at h
      cases hc : (if azp.2 then zoneCheckStage env azp.1 else Except.ok ()) with
      | error m =>
        rw [hc] at h
        simp at h
      | ok u =>
        rw [hc] at h
        dsimp only at h
        rw [listingPhase_call] at h
        have h2 := Option.some.inj h
        rw [← h2]
        exact ⟨rfl, rfl⟩

/-- C8 witness: in an interactive run whose zones were chosen through
the prompt (`["us-east-1a"]`), the listing call still receives the
untouched flag value `[]`. -/
theorem c8_listing_zone_argument_witness :
    envC8.interactiveAZs = Except.ok ["us-east-1a"] ∧
    envC8.argsAvailabilityZones = [] ∧
    (run envC8).listingCall = some ⟨"us-east-1", [], ""⟩ ∧
    (⟨"us-east-1", [], ""⟩ : ListingCall).availabilityZones = envC8.argsAvailabilityZones :=
  ⟨rfl, rfl, by decide,
    (c8_listing_zone_argument envC8 ⟨"us-east-1", [], ""⟩ (by decide)).1⟩

/-- C9: in structured-output mode the command serializes the machine
types of *every* fetched item — also the unavailable ones and also an
empty list — and, when serialization succeeds, exits 0 with no
warning. -/
theorem c9_structured_output (env : Env) (region : String) (azs : List String) (flag : Bool)
    (items : List MachineTypeItem)
    (h1 : regionStage env = Except.ok region) (h2 : zonesStage env = Except.ok (azs, flag))
    (h3 : flag = true → zoneCheckStage env azs = Except.ok ())
    (ho : env.hasOutputFlag = true) (hm : env.getMachineTypes = Except.ok items)
    (hp : env.outputPrint = Except.ok ()) :
    (run env).serialized = some (items.map (fun i => i.machineType)) ∧
    (run env).exitCode = 0 ∧ (run env).warnings = [] := by
  have hrun : runAfterDb env = listingPhase env region :=
    runAfterDb_listing env region azs flag h1 h2 h3
  refine ⟨?_, ?_, ?_⟩
  · rw [run_serialized, hrun]
    unfold listingPhase
    simp [hm, ho, hp]
  · rw [run_exitCode, hrun]
    unfold listingPhase
    simp [hm, ho, hp]
  · rw [run_warnings, hrun]
    unfold listingPhase
    simp [hm, ho, hp]

/-- C9 witness: one fetched machine type marked unavailable is
serialized anyway, and the command exits 0 without the empty-result
warning. -/
theorem c9_structured_output_witness :
    envC9.getMachineTypes = Except.ok [⟨mt0, false⟩] ∧
    (run envC9).serialized = some [mt0] ∧
    (run envC9).exitCode = 0 ∧ (run envC9).warnings = [] := by
  have h := c9_structured_output envC9 "us-east-1" [] false [⟨mt0, false⟩] rfl rfl
    (fun hf => absurd hf (by decide)) rfl rfl rfl
  exact ⟨rfl, h.1, h.2.1, h.2.2⟩
